import Mathlib

/-!
Shallow embedding of the pomodoro-timer session state machine
(`src/main.js`).  Module-level mutable state becomes an explicit
`SessionState` record; every action returns the new state together with
the list of externally observable notifications it emits (render
notifications and `SessionEnded(previousMode)` events, the latter
covering the sound + on-screen toast of `switchMode`).  JS numbers are
modelled as `Int` (the code lets `timeRemaining` pass through 0 via
`timeRemaining -= 1` before the `<= 0` check).
-/

/-- Session type: `"work"` or `"break"` in the source.  `break` is a Lean
keyword, hence `brk`. -/
inductive Mode where
  | work
  | brk
deriving DecidableEq, Repr

/-- Externally observable notifications an action emits. -/
inductive TimerEvent where
  /-- `updateDisplay()` — the render notification. -/
  | render
  /-- `SessionEnded(previousMode)`: the notification sound plus the
  on-screen toast emitted by `switchMode` (message chosen from the
  previous mode). -/
  | sessionEnded (previousMode : Mode)
deriving DecidableEq, Repr

/-- The module-level mutable state of `main.js`. -/
structure SessionState where
  /-- `workDuration` -/
  workDuration : Int
  /-- `breakDuration` -/
  breakDuration : Int
  /-- `timeRemaining` -/
  timeRemaining : Int
  /-- `isRunning` -/
  isRunning : Bool
  /-- `currentMode` -/
  currentMode : Mode
deriving DecidableEq, Repr

/-- `const ALLOWED_DURATIONS = [5, 10, 15, 20];` -/
def ALLOWED_DURATIONS : List Int := [5, 10, 15, 20]

/-- Initial module state: `workDuration = 10`, `breakDuration = 5`,
`timeRemaining = workDuration`, `isRunning = false`,
`currentMode = "work"`. -/
def initialState : SessionState :=
  { workDuration := 10
    breakDuration := 5
    timeRemaining := 10
    isRunning := false
    currentMode := Mode.work }

/-- `getDuration(mode)`: `mode === "work" ? workDuration : breakDuration`. -/
def getDuration (mode : Mode) (s : SessionState) : Int :=
  match mode with
  | Mode.work => s.workDuration
  | Mode.brk => s.breakDuration

/-- `String(n).padStart(2, "0")`: prepend `'0'`s until length 2 (leaves
strings of length ≥ 2 untouched). -/
def padStart2 (str : String) : String :=
  if 2 ≤ str.length then str
  else String.mk (List.replicate (2 - str.length) '0') ++ str

/-- `formatMMSS(seconds)`: minutes `Math.floor(seconds / 60)`, seconds
`seconds % 60`, each rendered with `padStart(2, "0")` and joined by
`":"`.  The source applies it to non-negative numbers only. -/
def formatMMSS (seconds : Nat) : String :=
  padStart2 (Nat.repr (seconds / 60)) ++ ":" ++ padStart2 (Nat.repr (seconds % 60))

/-- The inline ternary of `switchMode`:
`currentMode === "work" ? "break" : "work"`. -/
def Mode.flip : Mode → Mode
  | Mode.work => Mode.brk
  | Mode.brk => Mode.work

/-- `switchMode()`: flips `currentMode`, resets `timeRemaining` to the new
mode's duration, plays the notification sound and shows the toast (both
folded into one `sessionEnded previousMode` event). -/
def switchMode (s : SessionState) : SessionState × List TimerEvent :=
  let previousMode := s.currentMode
  let s1 := { s with currentMode := s.currentMode.flip }
  let s2 := { s1 with timeRemaining := getDuration s1.currentMode s1 }
  (s2, [TimerEvent.sessionEnded previousMode])

/-- `startPause()`: flips `isRunning`, then `updateDisplay()`.  (The
audio-context unlocking touches no session state.) -/
def startPause (s : SessionState) : SessionState × List TimerEvent :=
  ({ s with isRunning := !s.isRunning }, [TimerEvent.render])

/-- `reset()`: `isRunning = false`, `timeRemaining = getDuration(currentMode)`,
then `updateDisplay()`. -/
def reset (s : SessionState) : SessionState × List TimerEvent :=
  let s1 := { s with isRunning := false }
  let s2 := { s1 with timeRemaining := getDuration s1.currentMode s1 }
  (s2, [TimerEvent.render])

/-- `applyDurationSetting(mode, value)`: the DOM handler passes the
selected option's string, which `parseInt` turns into the number `sec`
modelled here directly.  Invalid values (not in `ALLOWED_DURATIONS`)
return early with no state change and no notification; valid values
update the matching duration field, and only when not running also reset
`timeRemaining` to the current mode's duration and `updateDisplay()`. -/
def applyDurationSetting (mode : Mode) (sec : Int) (s : SessionState) :
    SessionState × List TimerEvent :=
  if sec ∈ ALLOWED_DURATIONS then
    let s1 :=
      match mode with
      | Mode.work => { s with workDuration := sec }
      | Mode.brk => { s with breakDuration := sec }
    if !s1.isRunning then
      ({ s1 with timeRemaining := getDuration s1.currentMode s1 }, [TimerEvent.render])
    else
      (s1, [])
  else
    (s, [])

/-- `tick()`: no-op unless running; otherwise `timeRemaining -= 1`, a mode
switch when `timeRemaining <= 0`, then `updateDisplay()`. -/
def tick (s : SessionState) : SessionState × List TimerEvent :=
  if !s.isRunning then (s, [])
  else
    let s1 := { s with timeRemaining := s.timeRemaining - 1 }
    if s1.timeRemaining ≤ 0 then
      let r := switchMode s1
      (r.1, r.2 ++ [TimerEvent.render])
    else
      (s1, [TimerEvent.render])

/-- The four entry points callable from outside (UI handlers and the
1-second interval). -/
inductive TimerAction where
  | toggleRun
  | reset
  | setDuration (mode : Mode) (sec : Int)
  | tick
deriving DecidableEq, Repr

/-- Dispatch one action. -/
def step (s : SessionState) (a : TimerAction) : SessionState × List TimerEvent :=
  match a with
  | TimerAction.toggleRun => startPause s
  | TimerAction.reset => reset s
  | TimerAction.setDuration mode sec => applyDurationSetting mode sec s
  | TimerAction.tick => tick s

/-- Run a sequence of actions, accumulating all emitted events in order. -/
def steps (s : SessionState) : List TimerAction → SessionState × List TimerEvent
  | [] => (s, [])
  | a :: as =>
    let r1 := step s a
    let r2 := steps r1.1 as
    (r2.1, r1.2 ++ r2.2)

/-- A state is reachable when some action sequence from the initial state
produces it. -/
def Reachable (s : SessionState) : Prop :=
  ∃ as : List TimerAction, (steps initialState as).1 = s

/-- Number of `sessionEnded` events (mode switches) in an event list. -/
def switchCount (evs : List TimerEvent) : Nat :=
  evs.countP fun e =>
    match e with
    | TimerEvent.sessionEnded _ => true
    | _ => false

/-! ## Theorems -/

/-- C1: `tick()` is a no-op when `isRunning` is false; when running it
decrements `timeRemaining` by 1, and if the result is ≤ 0 it flips the
mode, resets `timeRemaining` to the new mode's configured duration,
emits `SessionEnded(previousMode)`, and keeps `isRunning` true. -/
theorem tick_correct (s : SessionState) :
    (s.isRunning = false → tick s = (s, [])) ∧
    (s.isRunning = true →
      (¬ s.timeRemaining - 1 ≤ 0 →
        tick s = ({ s with timeRemaining := s.timeRemaining - 1 }, [TimerEvent.render])) ∧
      (s.timeRemaining - 1 ≤ 0 →
        tick s =
          ({ s with currentMode := s.currentMode.flip,
                    timeRemaining := getDuration s.currentMode.flip s },
           [TimerEvent.sessionEnded s.currentMode, TimerEvent.render]) ∧
        (tick s).1.isRunning = true)) := by
  refine ⟨fun h => ?_, fun h => ⟨fun hgt => ?_, fun hle => ?_⟩⟩
  · simp [tick, h]
  · simp [tick, h, hgt]
  · cases s with
    | mk w b t r m =>
      cases m <;>
        simp_all [tick, switchMode, getDuration, Mode.flip]

/-- Witness for C1 on concrete states: stopped, running mid-session, and
running at the last second. -/
theorem tick_correct_witness :
    tick initialState = (initialState, []) ∧
    tick { initialState with isRunning := true } =
      ({ initialState with isRunning := true, timeRemaining := 10 - 1 },
        [TimerEvent.render]) ∧
    tick { initialState with isRunning := true, timeRemaining := 1 } =
      ({ initialState with isRunning := true, currentMode := Mode.brk,
                           timeRemaining := (getDuration Mode.brk initialState) },
        [TimerEvent.sessionEnded Mode.work, TimerEvent.render]) := by
  refine ⟨(tick_correct initialState).1 rfl,
    ((tick_correct { initialState with isRunning := true }).2 rfl).1 (by decide), ?_⟩
  exact (((tick_correct { initialState with isRunning := true, timeRemaining := 1 }).2
    rfl).2 (by decide)).1

/-- C3: for a valid `sec`, `applyDurationSetting` updates the duration
field selected by `mode`; when idle it also resets `timeRemaining` to the
current mode's (possibly new) duration, and when running it leaves
`timeRemaining` unchanged. -/
theorem applyDurationSetting_valid (mode : Mode) (sec : Int) (s : SessionState)
    (h : sec ∈ ALLOWED_DURATIONS) :
    (applyDurationSetting mode sec s).1.workDuration =
        (if mode = Mode.work then sec else s.workDuration) ∧
    (applyDurationSetting mode sec s).1.breakDuration =
        (if mode = Mode.brk then sec else s.breakDuration) ∧
    (applyDurationSetting mode sec s).1.currentMode = s.currentMode ∧
    (applyDurationSetting mode sec s).1.isRunning = s.isRunning ∧
    (s.isRunning = false →
      (applyDurationSetting mode sec s).1.timeRemaining =
        getDuration s.currentMode (applyDurationSetting mode sec s).1) ∧
    (s.isRunning = true →
      (applyDurationSetting mode sec s).1.timeRemaining = s.timeRemaining) := by
  cases mode <;>
    by_cases hr : s.isRunning <;>
      simp_all [applyDurationSetting, getDuration]

/-- Witness for C3: set the break duration to 15 while idle. -/
theorem applyDurationSetting_valid_witness :
    (15 : Int) ∈ ALLOWED_DURATIONS ∧
    (applyDurationSetting Mode.brk 15 initialState).1.breakDuration = 15 ∧
    (applyDurationSetting Mode.brk 15 initialState).1.timeRemaining =
      getDuration initialState.currentMode (applyDurationSetting Mode.brk 15 initialState).1 := by
  have h := applyDurationSetting_valid Mode.brk 15 initialState (by decide)
  exact ⟨by decide, by simpa using h.2.1, h.2.2.2.2.1 rfl⟩

/-- C4: for `sec` outside `ALLOWED_DURATIONS`, `applyDurationSetting` is a
total no-op: it returns the state unchanged in every field and emits
nothing (the rejection is local and non-fatal). -/
theorem applyDurationSetting_invalid (mode : Mode) (sec : Int) (s : SessionState)
    (h : sec ∉ ALLOWED_DURATIONS) :
    applyDurationSetting mode sec s = (s, []) := by
  simp [applyDurationSetting, h]

/-- Witness for C4: `sec = 7` is rejected without any state change. -/
theorem applyDurationSetting_invalid_witness :
    (7 : Int) ∉ ALLOWED_DURATIONS ∧
    applyDurationSetting Mode.work 7 initialState = (initialState, []) :=
  ⟨by decide, applyDurationSetting_invalid Mode.work 7 initialState (by decide)⟩

/-- C5 counterexample: on the reachable running state obtained by one
`toggleRun`, a valid `setDuration(WORK, 5)` emits no render notification,
refuting "every valid setDuration call triggers a render notification
regardless of whether the session is running". -/
theorem setDuration_render_counterexample :
    (5 : Int) ∈ ALLOWED_DURATIONS ∧
    (steps initialState [TimerAction.toggleRun]).1.isRunning = true ∧
    (applyDurationSetting Mode.work 5 (steps initialState [TimerAction.toggleRun]).1).2 = [] := by
  decide

/-- C5 amended: a valid `setDuration` triggers a render notification
exactly when the session is not running; while running it emits no
notification. -/
theorem setDuration_render_amended (mode : Mode) (sec : Int) (s : SessionState)
    (h : sec ∈ ALLOWED_DURATIONS) :
    (applyDurationSetting mode sec s).2 =
      if s.isRunning then [] else [TimerEvent.render] := by
  cases mode <;>
    by_cases hr : s.isRunning <;>
      simp_all [applyDurationSetting]

/-- Witness for amended C5: while idle, `setDuration(WORK, 20)` renders. -/
theorem setDuration_render_amended_witness :
    (20 : Int) ∈ ALLOWED_DURATIONS ∧
    (applyDurationSetting Mode.work 20 initialState).2 =
      (if initialState.isRunning then [] else [TimerEvent.render]) :=
  ⟨by decide, setDuration_render_amended Mode.work 20 initialState (by decide)⟩

/-- C7: `reset()` always succeeds, sets `isRunning` to false, sets
`timeRemaining` to the current mode's configured duration, and leaves
`currentMode` and both configured durations unchanged. -/
theorem reset_correct (s : SessionState) :
    (reset s).1.isRunning = false ∧
    (reset s).1.timeRemaining = getDuration s.currentMode s ∧
    (reset s).1.currentMode = s.currentMode ∧
    (reset s).1.workDuration = s.workDuration ∧
    (reset s).1.breakDuration = s.breakDuration := by
  cases s with
  | mk w b t r m => cases m <;> simp [reset, getDuration]

/-- C8: `toggleRun()` (source name `startPause`) flips `isRunning`,
changes no other field, and applied twice restores the state exactly. -/
theorem startPause_correct (s : SessionState) :
    (startPause s).1.isRunning = !s.isRunning ∧
    (startPause s).1.currentMode = s.currentMode ∧
    (startPause s).1.workDuration = s.workDuration ∧
    (startPause s).1.breakDuration = s.breakDuration ∧
    (startPause s).1.timeRemaining = s.timeRemaining ∧
    (startPause (startPause s).1).1 = s := by
  cases s with
  | mk w b t r m => simp [startPause]

/-! ## `formatMMSS` and decimal-representation length -/

/-- `Nat.toDigitsCore` with positive fuel pushes at least one digit onto
the accumulator. -/
theorem toDigitsCore_succ_length (b f : Nat) :
    ∀ (n : Nat) (l : List Char),
      l.length + 1 ≤ (Nat.toDigitsCore b (f + 1) n l).length := by
  induction f with
  | zero =>
    intro n l
    simp only [Nat.toDigitsCore]
    split <;> simp
  | succ f ih =>
    intro n l
    simp only [Nat.toDigitsCore]
    split
    · simp
    · calc l.length + 1 ≤ (Nat.digitChar (n % b) :: l).length + 1 := by simp
        _ ≤ _ := ih (n / b) (Nat.digitChar (n % b) :: l)

/-- One-step unfolding of `Nat.toDigitsCore` at positive fuel. -/
theorem toDigitsCore_unfold (b f n : Nat) (l : List Char) :
    Nat.toDigitsCore b (f + 1) n l =
      if n / b = 0 then Nat.digitChar (n % b) :: l
      else Nat.toDigitsCore b f (n / b) (Nat.digitChar (n % b) :: l) := rfl

/-- Decimal representations of numbers ≥ 10 have at least two characters. -/
theorem two_le_repr_length (n : Nat) (h : 10 ≤ n) : 2 ≤ (Nat.repr n).length := by
  have hdiv : n / 10 ≠ 0 := by omega
  obtain ⟨m, rfl⟩ : ∃ m, n = m + 1 := ⟨n - 1, by omega⟩
  show 2 ≤ (Nat.toDigits 10 (m + 1)).asString.length
  rw [Nat.toDigits, toDigitsCore_unfold, if_neg hdiv]
  exact toDigitsCore_succ_length 10 m ((m + 1) / 10) [Nat.digitChar ((m + 1) % 10)]

/-- On decimal representations, `padStart(2, "0")` prepends `"0"` exactly
below 10. -/
theorem padStart2_repr (n : Nat) :
    padStart2 (Nat.repr n) = if n < 10 then "0" ++ Nat.repr n else Nat.repr n := by
  by_cases h : n < 10
  · rw [if_pos h]
    interval_cases n <;> rfl
  · rw [if_neg h]
    unfold padStart2
    rw [if_pos (two_le_repr_length n (Nat.le_of_not_lt h))]

/-- Modelled from the spec's formatting rule, for comparison with the
source's `formatMMSS`: "zero-padded `MM:SS` (minutes = floor(seconds/60),
seconds = seconds mod 60)". -/
def zeroPadTwoDigits (n : Nat) : String :=
  if n < 10 then "0" ++ Nat.repr n else Nat.repr n

/-- Modelled from the spec's formatting rule (see `zeroPadTwoDigits`). -/
def formatMMSS_specification (seconds : Nat) : String :=
  zeroPadTwoDigits (seconds / 60) ++ ":" ++ zeroPadTwoDigits (seconds % 60)

/-- C9: for every non-negative integer `s`, `formatMMSS s` is the
zero-padded `MM:SS` string with minutes `s / 60` and seconds `s % 60`,
and in particular the three round-trip examples hold. -/
theorem formatMMSS_correct :
    (∀ s : Nat, formatMMSS s = formatMMSS_specification s) ∧
    formatMMSS 125 = "02:05" ∧ formatMMSS 5 = "00:05" ∧ formatMMSS 0 = "00:00" := by
  refine ⟨fun s => ?_, rfl, rfl, rfl⟩
  unfold formatMMSS formatMMSS_specification zeroPadTwoDigits
  rw [padStart2_repr, padStart2_repr]

/-! ## Reachability invariants -/

/-- C2 counterexample: start the timer, then set the work duration to 5
while it runs.  The resulting state is reachable, is not a transient zero
(`timeRemaining = 10`), and has `timeRemaining` strictly greater than the
current mode's configured duration. -/
theorem remaining_le_duration_counterexample :
    Reachable (steps initialState
      [TimerAction.toggleRun, TimerAction.setDuration Mode.work 5]).1 ∧
    (steps initialState
      [TimerAction.toggleRun, TimerAction.setDuration Mode.work 5]).1.timeRemaining = 10 ∧
    getDuration
      (steps initialState
        [TimerAction.toggleRun, TimerAction.setDuration Mode.work 5]).1.currentMode
      (steps initialState
        [TimerAction.toggleRun, TimerAction.setDuration Mode.work 5]).1 = 5 ∧
    ¬ (steps initialState
        [TimerAction.toggleRun, TimerAction.setDuration Mode.work 5]).1.timeRemaining ≤
      getDuration
        (steps initialState
          [TimerAction.toggleRun, TimerAction.setDuration Mode.work 5]).1.currentMode
        (steps initialState
          [TimerAction.toggleRun, TimerAction.setDuration Mode.work 5]).1 := by
  refine ⟨⟨[TimerAction.toggleRun, TimerAction.setDuration Mode.work 5], rfl⟩, ?_, ?_, ?_⟩ <;>
    decide

/-- `true` unless the action is a `setDuration` firing on a running state. -/
def liveGuard (s : SessionState) : TimerAction → Bool
  | TimerAction.setDuration _ _ => !s.isRunning
  | _ => true

/-- `true` when no `setDuration` action in the sequence executes while the
state it sees is running. -/
def noLiveSetDuration : SessionState → List TimerAction → Bool
  | _, [] => true
  | s, a :: as => liveGuard s a && noLiveSetDuration (step s a).1 as

/-- One step preserves `timeRemaining ≤ getDuration currentMode`, provided
a `setDuration` step only fires while not running. -/
theorem remaining_le_duration_step (s : SessionState) (a : TimerAction)
    (hinv : s.timeRemaining ≤ getDuration s.currentMode s)
    (ha : ∀ dm sec, a = TimerAction.setDuration dm sec → s.isRunning = false) :
    (step s a).1.timeRemaining ≤ getDuration (step s a).1.currentMode (step s a).1 := by
  cases s with
  | mk w b t r m =>
    cases a with
    | toggleRun => cases m <;> simp_all [step, startPause, getDuration]
    | reset => cases m <;> simp [step, reset, getDuration]
    | setDuration dm sec =>
      have hr : r = false := ha dm sec rfl
      subst hr
      by_cases hs : sec ∈ ALLOWED_DURATIONS <;>
        cases dm <;> cases m <;>
          simp_all [step, applyDurationSetting, getDuration]
    | tick =>
      cases r with
      | false => simp_all [step, tick]
      | true =>
        cases m <;>
          (simp only [step, tick, switchMode, getDuration, Mode.flip] at hinv ⊢
           split_ifs <;> first | (simp_all; done) | (simp_all; omega))

/-- C2 amended: along every action sequence from the initial state in
which `setDuration` is only invoked while not running, the final state
satisfies `timeRemaining ≤ getDuration currentMode`. -/
theorem remaining_le_duration_amended (as : List TimerAction)
    (h : noLiveSetDuration initialState as = true) :
    (steps initialState as).1.timeRemaining ≤
      getDuration (steps initialState as).1.currentMode (steps initialState as).1 := by
  suffices H : ∀ s : SessionState, noLiveSetDuration s as = true →
      s.timeRemaining ≤ getDuration s.currentMode s →
      (steps s as).1.timeRemaining ≤
        getDuration (steps s as).1.currentMode (steps s as).1 from
    H initialState h (by decide)
  clear h
  induction as with
  | nil => intro s _ hinv; simpa [steps] using hinv
  | cons a as ih =>
    intro s hno hinv
    rw [noLiveSetDuration, Bool.and_eq_true] at hno
    simp only [steps]
    refine ih (step s a).1 hno.2 (remaining_le_duration_step s a hinv ?_)
    intro dm sec hEq
    subst hEq
    simpa [liveGuard] using hno.1

/-- Witness for amended C2: start, then tick once. -/
theorem remaining_le_duration_amended_witness :
    noLiveSetDuration initialState [TimerAction.toggleRun, TimerAction.tick] = true ∧
    (steps initialState [TimerAction.toggleRun, TimerAction.tick]).1.timeRemaining ≤
      getDuration
        (steps initialState [TimerAction.toggleRun, TimerAction.tick]).1.currentMode
        (steps initialState [TimerAction.toggleRun, TimerAction.tick]).1 :=
  ⟨by decide,
    remaining_le_duration_amended [TimerAction.toggleRun, TimerAction.tick] (by decide)⟩

/-- The inductive invariant behind C10: `timeRemaining` is at least 1 and
both configured durations lie in `ALLOWED_DURATIONS`. -/
def GoodState (s : SessionState) : Prop :=
  1 ≤ s.timeRemaining ∧
    s.workDuration ∈ ALLOWED_DURATIONS ∧ s.breakDuration ∈ ALLOWED_DURATIONS

/-- Every allowed duration is at least 1. -/
theorem allowed_one_le : ∀ x ∈ ALLOWED_DURATIONS, (1 : Int) ≤ x := by decide

/-- One step preserves `GoodState`. -/
theorem goodState_step (s : SessionState) (a : TimerAction) (h : GoodState s) :
    GoodState (step s a).1 := by
  obtain ⟨h1, h2, h3⟩ := h
  have hw := allowed_one_le s.workDuration h2
  have hb := allowed_one_le s.breakDuration h3
  cases s with
  | mk w b t r m =>
    cases a with
    | toggleRun => exact ⟨h1, h2, h3⟩
    | reset => cases m <;> exact ⟨by simpa [step, reset, getDuration] using (by assumption),
        by simpa [step, reset] using h2, by simpa [step, reset] using h3⟩
    | setDuration dm sec =>
      by_cases hs : sec ∈ ALLOWED_DURATIONS
      · have hsec := allowed_one_le sec hs
        cases dm <;> cases m <;> cases r <;>
          simp_all [step, applyDurationSetting, getDuration, GoodState]
      · simp_all [step, applyDurationSetting, GoodState]
    | tick =>
      cases r with
      | false => exact ⟨h1, h2, h3⟩
      | true =>
        cases m <;>
          (simp only [step, tick, switchMode, getDuration, Mode.flip, GoodState]
           split_ifs <;> first | (simp_all; done) | (simp_all; omega))

/-- C10: after any sequence of calls from the initial state,
`timeRemaining` is a positive integer — the settled display never reads
"00:00". -/
theorem remaining_positive (as : List TimerAction) :
    1 ≤ (steps initialState as).1.timeRemaining := by
  suffices H : ∀ s : SessionState, GoodState s → GoodState (steps s as).1 from
    (H initialState (by refine ⟨?_, ?_, ?_⟩ <;> decide)).1
  induction as with
  | nil => intro s hs; simpa [steps] using hs
  | cons a as ih =>
    intro s hs
    simp only [steps]
    exact ih (step s a).1 (goodState_step s a hs)

/-! ## Mode alternation -/

/-- Flipping twice is the identity. -/
theorem mode_flip_flip (m : Mode) : m.flip.flip = m := by cases m <;> rfl

/-- Apply `Mode.flip` once per parity of `n`. -/
def flipParity (n : Nat) (m : Mode) : Mode :=
  if n % 2 = 0 then m else m.flip

/-- `flipParity` turns addition into composition. -/
theorem flipParity_add (m n : Nat) (x : Mode) :
    flipParity (m + n) x = flipParity n (flipParity m x) := by
  unfold flipParity
  rcases Nat.mod_two_eq_zero_or_one m with hm | hm <;>
    rcases Nat.mod_two_eq_zero_or_one n with hn | hn <;>
      simp [Nat.add_mod, hm, hn, mode_flip_flip]

/-- `switchCount` distributes over list append. -/
theorem switchCount_append (e1 e2 : List TimerEvent) :
    switchCount (e1 ++ e2) = switchCount e1 + switchCount e2 :=
  List.countP_append _ _ _

/-- One step flips the mode exactly when it emits a `sessionEnded`. -/
theorem step_mode (s : SessionState) (a : TimerAction) :
    (step s a).1.currentMode = flipParity (switchCount (step s a).2) s.currentMode := by
  cases a with
  | toggleRun => simp [step, startPause, switchCount, flipParity]
  | reset => simp [step, reset, switchCount, flipParity]
  | setDuration dm sec =>
    by_cases hs : sec ∈ ALLOWED_DURATIONS
    · cases dm <;>
        (simp only [step, applyDurationSetting, hs, if_true]
         split_ifs <;> simp [switchCount, flipParity])
    · cases dm <;> simp [step, applyDurationSetting, hs, switchCount, flipParity]
  | tick =>
    by_cases hr : s.isRunning
    · simp only [step, tick, hr, switchMode, Bool.not_true]
      split_ifs <;> simp [switchCount, flipParity, List.countP_cons]
    · simp only [step, tick]
      rw [Bool.not_eq_true] at hr
      simp [hr, switchCount, flipParity]

/-- Along any action sequence, the final mode is the initial mode flipped
once per emitted `sessionEnded` event. -/
theorem steps_mode (as : List TimerAction) :
    ∀ s : SessionState,
      (steps s as).1.currentMode = flipParity (switchCount (steps s as).2) s.currentMode := by
  induction as with
  | nil => intro s; simp [steps, switchCount, flipParity]
  | cons a as ih =>
    intro s
    simp only [steps]
    rw [switchCount_append, flipParity_add, ← step_mode, ih]

/-- C6: `toggleRun`, `reset` and `setDuration` never change the mode;
`tick` keeps the mode unless it performs a switch; and from the initial
WORK state the mode after `n` switches is BREAK for odd `n` and WORK for
even `n`. -/
theorem mode_switch_discipline :
    (∀ s : SessionState, (startPause s).1.currentMode = s.currentMode) ∧
    (∀ s : SessionState, (reset s).1.currentMode = s.currentMode) ∧
    (∀ (mode : Mode) (sec : Int) (s : SessionState),
      (applyDurationSetting mode sec s).1.currentMode = s.currentMode) ∧
    (∀ s : SessionState, s.isRunning = false → (tick s).1.currentMode = s.currentMode) ∧
    (∀ s : SessionState, ¬ s.timeRemaining - 1 ≤ 0 →
      (tick s).1.currentMode = s.currentMode) ∧
    (∀ as : List TimerAction,
      (steps initialState as).1.currentMode =
        (if switchCount (steps initialState as).2 % 2 = 0 then Mode.work else Mode.brk)) := by
  refine ⟨fun s => rfl, fun s => rfl, fun mode sec s => ?_, fun s h => ?_, fun s h => ?_,
    fun as => ?_⟩
  · by_cases hs : sec ∈ ALLOWED_DURATIONS
    · cases mode <;>
        (simp only [applyDurationSetting, hs, if_true]
         split_ifs <;> rfl)
    · cases mode <;> simp [applyDurationSetting, hs]
  · simp [tick, h]
  · by_cases hr : s.isRunning
    · simp [tick, hr, h]
    · rw [Bool.not_eq_true] at hr
      simp [tick, hr]
  · rw [steps_mode as initialState]
    unfold flipParity
    split_ifs <;> rfl

/-- Witness for C6's conditional conjuncts: `tick` on the idle initial
state and on a running state far from zero leaves the mode WORK. -/
theorem mode_switch_discipline_witness :
    (tick initialState).1.currentMode = initialState.currentMode ∧
    (tick { initialState with isRunning := true }).1.currentMode =
      ({ initialState with isRunning := true } : SessionState).currentMode := by
  refine ⟨mode_switch_discipline.2.2.2.1 initialState rfl, ?_⟩
  exact mode_switch_discipline.2.2.2.2.1 { initialState with isRunning := true } (by decide)
